import Mathlib

/-!
Shallow embedding of the recommendation engine of the AIChildEdu platform
(`recommendation_service/core/recommendation_engine.py`), together with proofs
about its behaviour.  Floating-point values are modelled as real numbers;
database rows are modelled as explicit lists; the fallible storage commit and
the fallible scipy cosine call are modelled with `Except`.
-/

namespace RecEngine

noncomputable section

/-- A value stored in a free-form JSON metadata map (the engine only ever
stores strings and numbers there). -/
inductive MetaVal where
  | str (s : String)
  | num (x : ℝ)

/-- A Python `dict` used as a metadata map: an insertion-ordered association
list from string keys to values. -/
abbrev Meta := List (String × MetaVal)

/-- First-match lookup in an association list, i.e. Python `d[k]` /
`d.get(k)` for a dict represented with distinct keys (and the first binding
for lists that happen to repeat a key). -/
def alookup {κ ν : Type} [BEq κ] (d : List (κ × ν)) (k : κ) : Option ν :=
  (d.find? (fun p => p.1 == k)).map (·.2)

/-- Python `d[k] = v` on an insertion-ordered dict: replace the binding in
place when the key is present, append it otherwise. -/
def aset {κ ν : Type} [BEq κ] (d : List (κ × ν)) (k : κ) (v : ν) : List (κ × ν) :=
  if d.any (fun p => p.1 == k) then
    d.map (fun p => if p.1 == k then (k, v) else p)
  else d ++ [(k, v)]

/-- Python `d.update(m)` (also the `{**lit, **m}` spread): fold `aset` over
the entries of `m` in order. -/
def aupdate {κ ν : Type} [BEq κ] (d m : List (κ × ν)) : List (κ × ν) :=
  m.foldl (fun acc p => aset acc p.1 p.2) d

/-- The value the key `k` ends up with after all entries of `m` have been
written into a dict in order: the last binding of `k` in `m`, if any. -/
def lastLookup {κ ν : Type} [BEq κ] (m : List (κ × ν)) (k : κ) : Option ν :=
  match m with
  | [] => none
  | p :: rest =>
    match lastLookup rest k with
    | some v => some v
    | none => if p.1 == k then some p.2 else none

/-- Row of the `user_content_interactions` table.  The `interaction_type`
column is a plain string (`models/recommendation.py`); identifiers and
timestamps are abstracted to naturals. -/
structure UserContentInteraction where
  user_id : Nat
  content_id : Nat
  interaction_type : String
  engagement_score : ℝ
  created_at : Nat

/-- Row of the `content_feature_vectors` table. -/
structure ContentFeatureVector where
  content_id : Nat
  feature_vector : List ℝ
  metadata : Meta

/-- Row of the `user_preferences` table.  The engine only tests this record
for existence (`_calculate_preference_vector` is a placeholder returning
`None`), but the stored fields are kept for fidelity. -/
structure UserPreference where
  user_id : Nat
  preferred_subjects : List String
  preferred_content_types : List String
  preferred_difficulty_levels : List String
  learning_style : Option String
  interests : List String

/-- The `RecommendationType` enum of `schemas/recommendation.py`. -/
inductive RecommendationType where
  | content_based
  | collaborative
  | hybrid
deriving DecidableEq

/-- The `RecommendationResponse` schema: one scored recommendation. -/
structure RecommendationResponse where
  content_id : Nat
  score : ℝ
  recommendation_type : RecommendationType
  metadata : Meta

/-- Row of the `recommendation_history` audit table, as built by
`_record_recommendations`. -/
structure RecommendationHistory where
  user_id : Nat
  content_id : Nat
  recommendation_type : RecommendationType
  score : ℝ
  metadata : Meta

/-- The storage the engine talks to through SQLAlchemy: the three tables it
reads, plus the commit of history rows, which can fail. -/
structure Env where
  interactions : List UserContentInteraction
  feature_vectors : List ContentFeatureVector
  preferences : List UserPreference
  save_history : List RecommendationHistory → Except Unit Unit

/-- `self.interaction_weights.get(t, 1.0)`: the fixed weight table keyed by
the interaction-type string, with default `1.0` for unknown types. -/
def interaction_weights_get (t : String) : ℝ :=
  if t = "view" then 1.0
  else if t = "complete" then 3.0
  else if t = "like" then 2.0
  else if t = "bookmark" then 2.5
  else 1.0

/-- `vec1 · vec2` as numpy computes it for equal-length arrays (zipWith
truncates, which is only exercised on equal-length inputs). -/
def dotProduct (u v : List ℝ) : ℝ := (List.zipWith (fun a b => a * b) u v).sum

/-- Euclidean norm used inside scipy's cosine distance. -/
def norm2 (u : List ℝ) : ℝ := Real.sqrt (dotProduct u u)

/-- `scipy.spatial.distance.cosine`: `1 - u·v / (|u| |v|)`. -/
def cosineDistance (u v : List ℝ) : ℝ :=
  1 - dotProduct u v / (norm2 u * norm2 v)

/-- `_calculate_similarity_score`: returns `0.0` when either vector is empty,
raises (modelled as `Except.error`) when scipy is handed two nonempty vectors
of different lengths, and otherwise returns `1 - cosine(vec1, vec2)`. -/
def calculate_similarity_score (vec1 vec2 : List ℝ) : Except Unit ℝ :=
  if vec1.isEmpty || vec2.isEmpty then .ok 0
  else if vec1.length != vec2.length then .error ()
  else .ok (1 - cosineDistance vec1 vec2)

/-- `_get_user_preferences`: first row of the preferences table for the user. -/
def get_user_preferences (env : Env) (u : Nat) : Option UserPreference :=
  env.preferences.find? (fun p => p.user_id == u)

/-- `_get_user_interactions`: the user's rows, ordered by `created_at`
descending (stably, matching a deterministic reading of the query). -/
def get_user_interactions (env : Env) (u : Nat) : List UserContentInteraction :=
  (env.interactions.filter (fun i => i.user_id == u)).mergeSort
    (fun a b => decide (b.created_at ≤ a.created_at))

/-- One metadata filter of `_get_content_feature_vectors`: when a filter
string is supplied, the row passes iff its metadata holds that exact string
under the key (a missing key never matches, as `NULL = x` is false in SQL). -/
def metaMatches (md : Meta) (k : String) (f : Option String) : Bool :=
  match f with
  | none => true
  | some s =>
    match alookup md k with
    | some (MetaVal.str s') => s' == s
    | _ => false

/-- `_get_content_feature_vectors`: filtered rows turned into the dict
`{v.content_id: v.feature_vector}`. -/
def get_content_feature_vectors (env : Env) (content_type subject difficulty_level : Option String) :
    List (Nat × List ℝ) :=
  (env.feature_vectors.filter (fun v =>
      metaMatches v.metadata "content_type" content_type &&
      metaMatches v.metadata "subject" subject &&
      metaMatches v.metadata "difficulty_level" difficulty_level)).foldl
    (fun d v => aset d v.content_id v.feature_vector) []

/-- `v * w` for a numpy vector and scalar. -/
def vscale (w : ℝ) (v : List ℝ) : List ℝ := v.map (fun x => x * w)

/-- Pointwise numpy vector addition (only exercised on equal-length inputs). -/
def vadd (u v : List ℝ) : List ℝ := List.zipWith (fun a b => a + b) u v

/-- The body of the accumulation loop of `_calculate_user_profile`: skip
interactions without a stored vector, otherwise add the weighted vector into
the running sum (starting it if absent) and add the weight into the total. -/
def profileStep (cvs : List (Nat × List ℝ)) (acc : Option (List ℝ) × ℝ)
    (i : UserContentInteraction) : Option (List ℝ) × ℝ :=
  match alookup cvs i.content_id with
  | none => acc
  | some v =>
    let w := interaction_weights_get i.interaction_type * i.engagement_score
    match acc.1 with
    | none => (some (vscale w v), acc.2 + w)
    | some p => (some (vadd p (vscale w v)), acc.2 + w)

/-- `_calculate_user_profile`: weighted average of the stored vectors of the
interacted content (division only when the total weight is positive); the
preference vector is always `None` (placeholder), so it never contributes;
an absent running sum yields the empty profile. -/
def calculate_user_profile (env : Env) (user_id : Nat)
    (interactions : List UserContentInteraction) (user_prefs : Option UserPreference) :
    List ℝ :=
  if interactions.isEmpty && user_prefs.isNone then []
  else
    let ids := interactions.map (·.content_id)
    let cvs := (env.feature_vectors.filter (fun v => ids.contains v.content_id)).foldl
      (fun d v => aset d v.content_id v.feature_vector) []
    let res := interactions.foldl (profileStep cvs) (none, 0)
    match res.1 with
    | some p => if res.2 > 0 then p.map (fun x => x / res.2) else p
    | none => []

/-- Stable descending sort by score: `recommendations.sort(key=..., reverse=True)`. -/
def sortByScoreDesc (l : List RecommendationResponse) : List RecommendationResponse :=
  l.mergeSort (fun a b => decide (b.score ≤ a.score))

/-- The metadata written by the content-based scorer for one candidate. -/
def cbMeta (sim : ℝ) : Meta :=
  [("similarity_score", MetaVal.num sim), ("recommendation_source", MetaVal.str "content_based")]

/-- `_get_content_based_recommendations`: profile-vs-candidate cosine scores
over the filtered candidate dict, skipping already-interacted content,
keeping strictly positive similarities, sorted descending and truncated. -/
def get_content_based_recommendations (env : Env) (u : Nat)
    (user_prefs : Option UserPreference) (content_type subject difficulty_level : Option String)
    (limit : Nat) : Except Unit (List RecommendationResponse) := do
  let interactions := get_user_interactions env u
  if interactions.isEmpty && user_prefs.isNone then return []
  let content_vectors := get_content_feature_vectors env content_type subject difficulty_level
  if content_vectors.isEmpty then return []
  let user_profile := calculate_user_profile env u interactions user_prefs
  let interactedIds := interactions.map (·.content_id)
  let recommendations ← content_vectors.foldlM (fun acc p =>
      if interactedIds.contains p.1 then pure acc
      else do
        let similarity ← calculate_similarity_score user_profile p.2
        if similarity > 0 then
          pure (acc ++ [⟨p.1, similarity, .content_based, cbMeta similarity⟩])
        else
          pure acc) []
  return (sortByScoreDesc recommendations).take limit

/-- The sorted anchor set: `sorted({i.content_id for i in user_interactions})`,
indexing the interaction vectors. -/
def anchorSorted (interactions : List UserContentInteraction) : List Nat :=
  ((interactions.map (·.content_id)).dedup).mergeSort (fun a b => decide (a ≤ b))

/-- The body of the loop of `_create_interaction_vector`: write the
interaction's weight at the index of its content id (later interactions on
the same content overwrite earlier ones). -/
def interactionVectorStep (sortedIds : List Nat) (vec : List ℝ)
    (i : UserContentInteraction) : List ℝ :=
  match sortedIds.findIdx? (fun c => c == i.content_id) with
  | some idx =>
    vec.set idx (interaction_weights_get i.interaction_type * i.engagement_score)
  | none => vec

/-- `_create_interaction_vector`: interaction strengths over the sorted
anchor content ids, starting from the all-zero vector. -/
def create_interaction_vector (interactions : List UserContentInteraction)
    (sortedIds : List Nat) : List ℝ :=
  interactions.foldl (interactionVectorStep sortedIds)
    (List.replicate sortedIds.length 0)

/-- Grouping of the similar-candidates' interaction rows by user, preserving
first-appearance order of users and row order within a user (the Python
dict-of-lists construction). -/
def groupByUser (l : List UserContentInteraction) :
    List (Nat × List UserContentInteraction) :=
  l.foldl (fun m i =>
    match alookup m i.user_id with
    | some is => aset m i.user_id (is ++ [i])
    | none => m ++ [(i.user_id, [i])]) []

/-- `_find_similar_users`: cosine similarity of anchor-set interaction
vectors against every other user who touched the anchor set; keep strictly
positive similarities, sort descending, retain the top 10. -/
def find_similar_users (env : Env) (u : Nat)
    (user_interactions : List UserContentInteraction) :
    Except Unit (List (Nat × ℝ)) := do
  let anchor := anchorSorted user_interactions
  if anchor.isEmpty then return []
  let others := env.interactions.filter
    (fun i => anchor.contains i.content_id && i.user_id != u)
  let grouped := groupByUser others
  let target_user_vector := create_interaction_vector user_interactions anchor
  let user_similarities ← grouped.foldlM (fun acc p => do
      let other_user_vector := create_interaction_vector p.2 anchor
      let similarity ← calculate_similarity_score target_user_vector other_user_vector
      if similarity > 0 then pure (acc ++ [(p.1, similarity)]) else pure acc) []
  return (user_similarities.mergeSort (fun a b => decide (b.2 ≤ a.2))).take 10

/-- The metadata written by the collaborative scorer for one candidate. -/
def collabMeta (score : ℝ) : Meta :=
  [("collaborative_score", MetaVal.num score), ("recommendation_source", MetaVal.str "collaborative")]

/-- The body of the aggregation loop of `_get_recommendations_from_similar_users`:
skip content the target user already saw, otherwise add
`similarity_weight * type_weight * engagement` into the candidate's total. -/
def collabScoreStep (similar_users : List (Nat × ℝ)) (user_content_ids : List Nat)
    (cs : List (Nat × ℝ)) (i : UserContentInteraction) : List (Nat × ℝ) :=
  if user_content_ids.contains i.content_id then cs
  else
    let user_weight := (alookup similar_users i.user_id).getD 0
    let interaction_weight :=
      interaction_weights_get i.interaction_type * i.engagement_score
    let score := user_weight * interaction_weight
    aset cs i.content_id ((alookup cs i.content_id).getD 0 + score)

/-- `_get_recommendations_from_similar_users`: accumulated contributions per
unseen content id.  The `content_type`/`subject`/`difficulty_level`
parameters are accepted and ignored, exactly as in the source. -/
def get_recommendations_from_similar_users (env : Env) (u : Nat)
    (similar_users : List (Nat × ℝ))
    (content_type subject difficulty_level : Option String) :
    List RecommendationResponse :=
  let user_interactions := get_user_interactions env u
  let user_content_ids := user_interactions.map (·.content_id)
  let similar_user_ids := similar_users.map (·.1)
  let similar_users_interactions := env.interactions.filter
    (fun i => similar_user_ids.contains i.user_id)
  let content_scores := similar_users_interactions.foldl
    (collabScoreStep similar_users user_content_ids) []
  content_scores.map (fun p => ⟨p.1, p.2, .collaborative, collabMeta p.2⟩)

/-- `_get_collaborative_recommendations`: similar-user discovery followed by
candidate aggregation, sorted descending and truncated. -/
def get_collaborative_recommendations (env : Env) (u : Nat)
    (content_type subject difficulty_level : Option String) (limit : Nat) :
    Except Unit (List RecommendationResponse) := do
  let user_interactions := get_user_interactions env u
  if user_interactions.isEmpty then return []
  let similar_users ← find_similar_users env u user_interactions
  if similar_users.isEmpty then return []
  let recommendations := get_recommendations_from_similar_users env u
    similar_users content_type subject difficulty_level
  return (sortByScoreDesc recommendations).take limit

/-- One entry of the merged dict of `_hybrid_merge_recommendations`. -/
structure MergedEntry where
  content_based_score : ℝ
  collaborative_score : ℝ
  metadata : Meta

/-- The metadata dict literal built for one hybrid recommendation:
the merger's own keys, then the component metadata spread over them
(`**data["metadata"]` overwrites on conflict). -/
def hybridMeta (e : MergedEntry) : Meta :=
  let hybrid_score := e.content_based_score * 0.6 + e.collaborative_score * 0.4
  aupdate
    [("hybrid_score", MetaVal.num hybrid_score),
     ("content_based_score", MetaVal.num e.content_based_score),
     ("collaborative_score", MetaVal.num e.collaborative_score),
     ("recommendation_source", MetaVal.str "hybrid")]
    e.metadata

/-- The first loop of `_hybrid_merge_recommendations`. -/
def hybridStepCB (m : List (Nat × MergedEntry)) (r : RecommendationResponse) :
    List (Nat × MergedEntry) :=
  aset m r.content_id ⟨r.score, 0, r.metadata⟩

/-- The second loop of `_hybrid_merge_recommendations`. -/
def hybridStepCollab (m : List (Nat × MergedEntry)) (r : RecommendationResponse) :
    List (Nat × MergedEntry) :=
  match alookup m r.content_id with
  | some e =>
    aset m r.content_id ⟨e.content_based_score, r.score, aupdate e.metadata r.metadata⟩
  | none => aset m r.content_id ⟨0, r.score, r.metadata⟩

/-- `_hybrid_merge_recommendations`: merge both result sets by content id,
score every entry `0.6 * content_based + 0.4 * collaborative`, sort
descending and truncate. -/
def hybrid_merge_recommendations (content_based_recs collaborative_recs : List RecommendationResponse)
    (limit : Nat) : List RecommendationResponse :=
  let m1 := content_based_recs.foldl hybridStepCB []
  let m2 := collaborative_recs.foldl hybridStepCollab m1
  let recommendations := m2.map (fun p =>
    let hybrid_score := p.2.content_based_score * 0.6 + p.2.collaborative_score * 0.4
    (⟨p.1, hybrid_score, .hybrid, hybridMeta p.2⟩ : RecommendationResponse))
  (sortByScoreDesc recommendations).take limit

/-- `_record_recommendations`: build one history row per recommendation and
commit; the commit can fail, and the failure is not caught. -/
def record_recommendations (env : Env) (u : Nat)
    (recommendations : List RecommendationResponse) : Except Unit Unit :=
  env.save_history (recommendations.map
    (fun r => ⟨u, r.content_id, r.recommendation_type, r.score, r.metadata⟩))

/-- `get_recommendations`: the full pipeline.  Any failure of a stage —
including the history write at the end — propagates to the caller. -/
def get_recommendations (env : Env) (u : Nat)
    (content_type subject difficulty_level : Option String) (limit : Nat) :
    Except Unit (List RecommendationResponse) := do
  let user_prefs := get_user_preferences env u
  let content_based_recs ← get_content_based_recommendations env u user_prefs
    content_type subject difficulty_level limit
  let collab_recs ← get_collaborative_recommendations env u
    content_type subject difficulty_level limit
  let final_recs := hybrid_merge_recommendations content_based_recs collab_recs limit
  record_recommendations env u final_recs
  return final_recs

/-- Component score a content id carries in a scorer's result list, as the
merger's dict ends up recording it: the score of the last occurrence of the
id, `0` when the id is absent.  Used to state the hybrid-score property. -/
def lastScore (l : List RecommendationResponse) (cid : Nat) : ℝ :=
  (lastLookup (l.map (fun r => (r.content_id, r.score))) cid).getD 0

/-- Distinctness of the keys of an association list (Python dicts have it by
construction). -/
def keysNodup {κ ν : Type} (d : List (κ × ν)) : Prop :=
  (d.map (·.1)).Nodup

/-- An interaction with its type replaced by `"view"`; used to state that
unknown interaction types behave exactly like `view`. -/
def retypeView (i : UserContentInteraction) : UserContentInteraction :=
  { i with interaction_type := "view" }

/-- Environment with empty tables and a history commit that always fails. -/
def envFail : Env :=
  { interactions := [], feature_vectors := [], preferences := [],
    save_history := fun _ => .error () }

/-- Environment with empty tables and a history commit that succeeds. -/
def envOkEmpty : Env :=
  { interactions := [], feature_vectors := [], preferences := [],
    save_history := fun _ => .ok () }

/-- Environment with a dimension-mismatched candidate: user 1 interacted with
content 10 (vector `[1]`), and content 20 stores the two-dimensional vector
`[1, 0]`. -/
def envC2 : Env :=
  { interactions := [⟨1, 10, "view", 1, 0⟩],
    feature_vectors := [⟨10, [1], []⟩, ⟨20, [1, 0], []⟩],
    preferences := [],
    save_history := fun _ => .ok () }

/-- Environment where user 1 has a single zero-engagement interaction on
content 10, whose feature vector `[1]` is stored. -/
def envC3 : Env :=
  { interactions := [⟨1, 10, "view", 0, 0⟩],
    feature_vectors := [⟨10, [1], []⟩],
    preferences := [],
    save_history := fun _ => .ok () }

/-- Environment where users 1 and 2 both viewed content 10, user 2 also
viewed content 20, and content 20 has a stored feature vector whose metadata
says `content_type = "video"`. -/
def envC4 : Env :=
  { interactions := [⟨1, 10, "view", 1, 0⟩, ⟨2, 10, "view", 1, 1⟩, ⟨2, 20, "view", 1, 2⟩],
    feature_vectors := [⟨20, [1], [("content_type", MetaVal.str "video")]⟩],
    preferences := [],
    save_history := fun _ => .ok () }

end

section DictLemmas

variable {κ ν : Type} [BEq κ]

theorem alookup_nil (k : κ) : alookup ([] : List (κ × ν)) k = none := rfl

theorem alookup_cons (p : κ × ν) (d : List (κ × ν)) (k : κ) :
    alookup (p :: d) k = if p.1 == k then some p.2 else alookup d k := by
  cases h : p.1 == k <;> simp [alookup, List.find?_cons, h]

theorem alookup_append (l₁ l₂ : List (κ × ν)) (k : κ) :
    alookup (l₁ ++ l₂) k =
      match alookup l₁ k with
      | some v => some v
      | none => alookup l₂ k := by
  induction l₁ with
  | nil => simp [alookup]
  | cons p rest ih =>
    cases h : p.1 == k <;> simp [alookup_cons, h, ih]

theorem alookup_eq_none_of_not_any {d : List (κ × ν)} {k : κ}
    (h : ¬ d.any (fun p => p.1 == k)) : alookup d k = none := by
  induction d with
  | nil => rfl
  | cons p rest ih =>
    simp only [List.any_cons, Bool.or_eq_true, not_or] at h
    rw [alookup_cons]
    simp only [h.1, if_false]
    exact ih (by simpa using h.2)

theorem lastLookup_nil (k : κ) : lastLookup ([] : List (κ × ν)) k = none := rfl

theorem lastLookup_cons (p : κ × ν) (d : List (κ × ν)) (k : κ) :
    lastLookup (p :: d) k =
      match lastLookup d k with
      | some v => some v
      | none => if p.1 == k then some p.2 else none := rfl

theorem lastLookup_append (l₁ l₂ : List (κ × ν)) (k : κ) :
    lastLookup (l₁ ++ l₂) k =
      match lastLookup l₂ k with
      | some v => some v
      | none => lastLookup l₁ k := by
  induction l₁ with
  | nil => cases h : lastLookup l₂ k <;> simp [lastLookup_nil, h]
  | cons p rest ih =>
    rw [List.cons_append, lastLookup_cons, ih, lastLookup_cons]
    cases h : lastLookup l₂ k <;> cases h' : lastLookup rest k <;> simp [h, h']

theorem lastLookup_eq_none_of_not_any {d : List (κ × ν)} {k : κ}
    (h : ¬ d.any (fun p => p.1 == k)) : lastLookup d k = none := by
  induction d with
  | nil => rfl
  | cons p rest ih =>
    simp only [List.any_cons, Bool.or_eq_true, not_or] at h
    rw [lastLookup_cons, ih (by simpa using h.2)]
    simp [h.1]

theorem any_map_aset [LawfulBEq κ] (d : List (κ × ν)) (k k' : κ) (v : ν) :
    (d.map (fun p => if p.1 == k then (k, v) else p)).any (fun p => p.1 == k') =
      d.any (fun p => p.1 == k') := by
  induction d with
  | nil => rfl
  | cons p rest ih =>
    by_cases hpk : p.1 == k
    · have hp : p.1 = k := by simpa using hpk
      simp [hpk, ih, hp]
    · simp [hpk, ih]

theorem alookup_map_aset_self [LawfulBEq κ] {d : List (κ × ν)} {k : κ} {v : ν}
    (h : d.any (fun p => p.1 == k)) :
    alookup (d.map (fun p => if p.1 == k then (k, v) else p)) k = some v := by
  induction d with
  | nil => simp at h
  | cons p rest ih =>
    by_cases hpk : p.1 == k
    · simp [alookup_cons, hpk]
    · have hrest : rest.any (fun p => p.1 == k) := by
        simpa [List.any_cons, hpk] using h
      simp [alookup_cons, hpk, ih hrest]

theorem alookup_aset_self [LawfulBEq κ] (d : List (κ × ν)) (k : κ) (v : ν) :
    alookup (aset d k v) k = some v := by
  by_cases h : d.any (fun p => p.1 == k)
  · rw [aset, if_pos h]; exact alookup_map_aset_self h
  · rw [aset, if_neg h, alookup_append, alookup_eq_none_of_not_any h]
    simp [alookup_cons]

theorem alookup_map_aset_ne [LawfulBEq κ] (d : List (κ × ν)) {k k' : κ} (v : ν)
    (hne : k' ≠ k) :
    alookup (d.map (fun p => if p.1 == k then (k, v) else p)) k' = alookup d k' := by
  induction d with
  | nil => rfl
  | cons p rest ih =>
    by_cases hpk : p.1 == k
    · have hp : p.1 = k := by simpa using hpk
      have hk : (k == k') = false := by simpa using (Ne.symm hne)
      simp [alookup_cons, hpk, hp, hk, ih]
    · simp [alookup_cons, hpk, ih]

theorem alookup_aset_ne [LawfulBEq κ] (d : List (κ × ν)) {k k' : κ} (v : ν)
    (hne : k' ≠ k) :
    alookup (aset d k v) k' = alookup d k' := by
  by_cases h : d.any (fun p => p.1 == k)
  · rw [aset, if_pos h]; exact alookup_map_aset_ne d v hne
  · rw [aset, if_neg h, alookup_append]
    have h1 : alookup [(k, v)] k' = none := by
      have hk : (k == k') = false := by simpa using (Ne.symm hne)
      simp [alookup_cons, hk, alookup_nil]
    cases halt : alookup d k' <;> simp [halt, h1]

theorem lastLookup_map_aset_self [LawfulBEq κ] {d : List (κ × ν)} {k : κ} {v : ν}
    (h : d.any (fun p => p.1 == k)) :
    lastLookup (d.map (fun p => if p.1 == k then (k, v) else p)) k = some v := by
  induction d with
  | nil => simp at h
  | cons p rest ih =>
    by_cases hrest : rest.any (fun p => p.1 == k)
    · rw [List.map_cons, lastLookup_cons, ih hrest]
    · have hpk : p.1 == k := by
        rcases (by simpa [List.any_cons] using h : (p.1 == k) = true ∨ rest.any (fun p => p.1 == k) = true) with h' | h'
        · exact h'
        · exact absurd h' hrest
      have hnone : lastLookup (rest.map (fun p => if p.1 == k then (k, v) else p)) k = none :=
        lastLookup_eq_none_of_not_any (by rwa [any_map_aset])
      rw [List.map_cons, lastLookup_cons, hnone]
      simp [hpk]

theorem lastLookup_map_aset_ne [LawfulBEq κ] (d : List (κ × ν)) {k k' : κ} (v : ν)
    (hne : k' ≠ k) :
    lastLookup (d.map (fun p => if p.1 == k then (k, v) else p)) k' = lastLookup d k' := by
  induction d with
  | nil => rfl
  | cons p rest ih =>
    rw [List.map_cons, lastLookup_cons, ih, lastLookup_cons]
    by_cases hpk : p.1 == k
    · have hp : p.1 = k := by simpa using hpk
      have hk : (k == k') = false := by simpa using (Ne.symm hne)
      cases lastLookup rest k' <;> simp [hpk, hp, hk]
    · cases lastLookup rest k'
      · rw [if_neg hpk]
      · simp

theorem lastLookup_aset_self [LawfulBEq κ] (d : List (κ × ν)) (k : κ) (v : ν) :
    lastLookup (aset d k v) k = some v := by
  by_cases h : d.any (fun p => p.1 == k)
  · rw [aset, if_pos h]; exact lastLookup_map_aset_self h
  · rw [aset, if_neg h, lastLookup_append]
    have h1 : lastLookup [(k, v)] k = some v := by simp [lastLookup_cons, lastLookup_nil]
    rw [h1]

theorem lastLookup_aset_ne [LawfulBEq κ] (d : List (κ × ν)) {k k' : κ} (v : ν)
    (hne : k' ≠ k) :
    lastLookup (aset d k v) k' = lastLookup d k' := by
  by_cases h : d.any (fun p => p.1 == k)
  · rw [aset, if_pos h]; exact lastLookup_map_aset_ne d v hne
  · rw [aset, if_neg h, lastLookup_append]
    have h1 : lastLookup [(k, v)] k' = none := by
      have hk : (k == k') = false := by simpa using (Ne.symm hne)
      simp [lastLookup_cons, lastLookup_nil, hk]
    rw [h1]

theorem alookup_aupdate [LawfulBEq κ] (d m : List (κ × ν)) (k : κ) :
    alookup (aupdate d m) k =
      match lastLookup m k with
      | some v => some v
      | none => alookup d k := by
  induction m generalizing d with
  | nil => rfl
  | cons p rest ih =>
    have hstep : aupdate d (p :: rest) = aupdate (aset d p.1 p.2) rest := rfl
    rw [hstep, ih, lastLookup_cons]
    cases h : lastLookup rest k
    · by_cases hpk : p.1 == k
      · have hp : p.1 = k := by simpa using hpk
        simp [hpk, hp, alookup_aset_self]
      · have hkp : k ≠ p.1 := fun hh => hpk (by simp [hh])
        simp [hpk, alookup_aset_ne d _ hkp]
    · simp

theorem lastLookup_aupdate [LawfulBEq κ] (d m : List (κ × ν)) (k : κ) :
    lastLookup (aupdate d m) k =
      match lastLookup m k with
      | some v => some v
      | none => lastLookup d k := by
  induction m generalizing d with
  | nil => rfl
  | cons p rest ih =>
    have hstep : aupdate d (p :: rest) = aupdate (aset d p.1 p.2) rest := rfl
    rw [hstep, ih, lastLookup_cons]
    cases h : lastLookup rest k
    · by_cases hpk : p.1 == k
      · have hp : p.1 = k := by simpa using hpk
        simp [hpk, hp, lastLookup_aset_self]
      · have hkp : k ≠ p.1 := fun hh => hpk (by simp [hh])
        simp [hpk, lastLookup_aset_ne d _ hkp]
    · simp

theorem mem_aset [LawfulBEq κ] {d : List (κ × ν)} {k : κ} {v : ν} {p : κ × ν}
    (h : p ∈ aset d k v) : p ∈ d ∨ p = (k, v) := by
  rw [aset] at h
  split at h
  · rcases List.mem_map.1 h with ⟨q, hq, rfl⟩
    by_cases hqk : q.1 == k
    · right; simp [hqk]
    · left; simpa [hqk] using hq
  · rcases List.mem_append.1 h with h | h
    · left; exact h
    · right; simpa using h

theorem alookup_mem [LawfulBEq κ] {d : List (κ × ν)} {k : κ} {v : ν}
    (h : alookup d k = some v) : (k, v) ∈ d := by
  unfold alookup at h
  cases hf : d.find? (fun p => p.1 == k) with
  | none => rw [hf] at h; simp at h
  | some q =>
    rw [hf] at h
    simp only [Option.map_some'] at h
    have hq := List.find?_some hf
    have hmem := List.mem_of_find?_eq_some hf
    have hqe : q = (k, v) := by
      cases q with
      | mk a b =>
        have ha : a = k := by simpa using hq
        have hb : b = v := by simpa using h
        simp [ha, hb]
    rwa [hqe] at hmem

theorem keys_map_aset [LawfulBEq κ] (d : List (κ × ν)) (k : κ) (v : ν) :
    (d.map (fun p => if p.1 == k then (k, v) else p)).map (·.1) = d.map (·.1) := by
  induction d with
  | nil => rfl
  | cons p rest ih =>
    by_cases hpk : p.1 == k
    · have hp : p.1 = k := by simpa using hpk
      simp [hpk, ih, hp]
    · simp [hpk, ih]

theorem keysNodup_aset [LawfulBEq κ] {d : List (κ × ν)} (h : keysNodup d) (k : κ) (v : ν) :
    keysNodup (aset d k v) := by
  unfold keysNodup at *
  rw [aset]
  split
  · rwa [keys_map_aset]
  · rename_i hany
    rw [List.map_append]
    refine List.Nodup.append h (List.nodup_singleton k) ?_
    intro a ha hb
    simp only [List.map_cons, List.map_nil, List.mem_singleton] at hb
    subst hb
    rcases List.mem_map.1 ha with ⟨q, hq, hqa⟩
    exact hany (List.any_eq_true.2 ⟨q, hq, by simp [hqa]⟩)

theorem alookup_of_mem_nodup [LawfulBEq κ] {d : List (κ × ν)} (hnd : keysNodup d)
    {k : κ} {v : ν} (h : (k, v) ∈ d) : alookup d k = some v := by
  induction d with
  | nil => simp at h
  | cons p rest ih =>
    unfold keysNodup at hnd
    rw [List.map_cons, List.nodup_cons] at hnd
    rcases List.mem_cons.1 h with h' | hmem
    · rw [← h', alookup_cons]
      simp
    · have hk : k ∈ rest.map (·.1) := List.mem_map.2 ⟨(k, v), hmem, rfl⟩
      cases hb : p.1 == k with
      | true =>
        have hp : p.1 = k := by simpa using hb
        rw [← hp] at hk
        exact absurd hk hnd.1
      | false =>
        rw [alookup_cons, hb]
        simp only [Bool.false_eq_true, if_false]
        exact ih hnd.2 hmem

end DictLemmas

section ExceptLemmas

theorem except_bind_ok {ε α β : Type} (a : α) (f : α → Except ε β) :
    (Except.ok a >>= f) = f a := rfl

theorem except_bind_error {ε α β : Type} (e : ε) (f : α → Except ε β) :
    ((Except.error e : Except ε α) >>= f) = Except.error e := rfl

theorem except_bind_ok_inv {ε α β : Type} {x : Except ε α} {f : α → Except ε β} {y : β}
    (h : x >>= f = .ok y) : ∃ a, x = .ok a ∧ f a = .ok y := by
  cases x with
  | error e => rw [except_bind_error] at h; exact Except.noConfusion h
  | ok a => exact ⟨a, rfl, h⟩

theorem except_bind_error_of {ε α β : Type} {x : Except ε α} {e : ε}
    (h : x = .error e) (f : α → Except ε β) : (x >>= f) = .error e := by
  rw [h, except_bind_error]

theorem except_pure_bind {ε α β : Type} (a : α) (f : α → Except ε β) :
    ((pure a : Except ε α) >>= f) = f a := rfl

theorem except_pure_eq {ε α : Type} (a : α) : (pure a : Except ε α) = Except.ok a := rfl

theorem foldlM_except_error {α β : Type} (f : β → α → Except Unit β) (l : List α)
    (h : ∃ a ∈ l, ∀ acc, f acc a = .error ()) (b : β) :
    l.foldlM f b = .error () := by
  induction l generalizing b with
  | nil => simp at h
  | cons x xs ih =>
    rw [List.foldlM_cons]
    rcases h with ⟨a, ha, hf⟩
    rcases List.mem_cons.1 ha with rfl | hmem
    · rw [hf b, except_bind_error]
    · cases hx : f b x with
      | error e => cases e; rw [except_bind_error]
      | ok b' => rw [except_bind_ok]; exact ih ⟨a, hmem, hf⟩ b'

theorem foldlM_except_ok_forall {α β : Type} {f : β → α → Except Unit β} {l : List α}
    {b out : β} (P : β → Prop)
    (hstep : ∀ acc a b', a ∈ l → P acc → f acc a = .ok b' → P b')
    (hb : P b) (h : l.foldlM f b = .ok out) : P out := by
  induction l generalizing b with
  | nil =>
    rw [List.foldlM_nil] at h
    cases h; exact hb
  | cons x xs ih =>
    rw [List.foldlM_cons] at h
    cases hx : f b x with
    | error e => rw [hx, except_bind_error] at h; exact Except.noConfusion h
    | ok b' =>
      rw [hx, except_bind_ok] at h
      exact ih (fun acc a c ha => hstep acc a c (List.mem_cons_of_mem _ ha))
        (hstep b x b' (List.mem_cons_self x xs) hb hx) h

end ExceptLemmas

section SimilarityLemmas

theorem dotProduct_comm (u v : List ℝ) : dotProduct u v = dotProduct v u := by
  unfold dotProduct
  induction u generalizing v with
  | nil => cases v <;> simp
  | cons x xs ih =>
    cases v with
    | nil => simp
    | cons y ys =>
      simp only [List.zipWith_cons_cons, List.sum_cons]
      rw [mul_comm x y, ih ys]

theorem dotProduct_self_nonneg (v : List ℝ) : 0 ≤ dotProduct v v := by
  unfold dotProduct
  induction v with
  | nil => simp
  | cons x xs ih =>
    simp only [List.zipWith_cons_cons, List.sum_cons]
    exact add_nonneg (mul_self_nonneg x) ih

end SimilarityLemmas

/-- Claim C5 (amended): the engine's cosine similarity of a nonempty vector
with nonzero self-dot-product with itself is exactly `1`, and the similarity
computation is symmetric in its two arguments (for every pair of vectors,
including the empty and mismatched-length cases).  The original claim fails
for the empty vector, for which the code returns `0.0`. -/
theorem similarity_self_one_and_symm :
    (∀ v : List ℝ, v ≠ [] → dotProduct v v ≠ 0 →
      calculate_similarity_score v v = .ok 1) ∧
    (∀ a b : List ℝ, calculate_similarity_score a b = calculate_similarity_score b a) := by
  constructor
  · intro v hv hd
    unfold calculate_similarity_score
    have h1 : v.isEmpty = false := by simpa [List.isEmpty_iff] using hv
    simp only [h1, Bool.or_self, Bool.false_eq_true, if_false, bne_self_eq_false]
    unfold cosineDistance norm2
    rw [Real.mul_self_sqrt (dotProduct_self_nonneg v), div_self hd]
    norm_num
  · intro a b
    unfold calculate_similarity_score
    by_cases ha : a.isEmpty <;> by_cases hb : b.isEmpty
    · simp [ha, hb]
    · simp [ha, hb]
    · simp [ha, hb]
    · simp only [ha, hb, Bool.or_self, Bool.false_eq_true, if_false]
      by_cases hlen : a.length = b.length
      · have h1 : (a.length != b.length) = false := by simp [hlen]
        have h2 : (b.length != a.length) = false := by simp [hlen]
        simp only [h1, h2, Bool.false_eq_true, if_false]
        unfold cosineDistance norm2
        rw [dotProduct_comm a b, mul_comm]
      · have h1 : (a.length != b.length) = true := by simp [hlen]
        have h2 : (b.length != a.length) = true := by simp [Ne.symm hlen]
        simp [h1, h2]

/-- Witness for C5's amended theorem at concrete inputs. -/
theorem similarity_self_one_and_symm_witness :
    calculate_similarity_score [1] [1] = .ok 1 ∧
    calculate_similarity_score [1, 2] [3] = calculate_similarity_score [3] [1, 2] :=
  ⟨similarity_self_one_and_symm.1 [1] (by simp)
      (by norm_num [dotProduct]),
   similarity_self_one_and_symm.2 [1, 2] [3]⟩

/-- Counterexample to claim C5 as stated: the engine's similarity of the
empty vector with itself is `0.0`, not within `1e-9` of `1.0`. -/
theorem similarity_empty_self_not_one :
    calculate_similarity_score ([] : List ℝ) [] = .ok 0 ∧
    ¬ |(0 : ℝ) - 1| ≤ 1 / 1000000000 := by
  constructor
  · rfl
  · norm_num

/-- Claim C1: if both scorers succeed but the history write of the merged
list fails, `get_recommendations` propagates the failure instead of
returning the computed recommendation list — the code has no handler around
`_record_recommendations`, contradicting the spec's recover-locally design. -/
theorem history_write_failure_propagates
    (env : Env) (u : Nat) (ct s dl : Option String) (lim : Nat)
    (cb cl : List RecommendationResponse)
    (hcb : get_content_based_recommendations env u (get_user_preferences env u) ct s dl lim = .ok cb)
    (hcl : get_collaborative_recommendations env u ct s dl lim = .ok cl)
    (hw : record_recommendations env u (hybrid_merge_recommendations cb cl lim) = .error ()) :
    get_recommendations env u ct s dl lim = .error () := by
  simp only [get_recommendations, hcb, except_bind_ok, hcl, hw, except_bind_error]

/-- Witness for C1: empty tables with a failing history commit; the final
list `[]` is computed, yet the caller receives the storage error. -/
theorem history_write_failure_propagates_witness :
    get_content_based_recommendations envFail 1 (get_user_preferences envFail 1) none none none 10 = .ok []
    ∧ get_collaborative_recommendations envFail 1 none none none 10 = .ok []
    ∧ record_recommendations envFail 1 (hybrid_merge_recommendations [] [] 10) = .error ()
    ∧ get_recommendations envFail 1 none none none 10 = .error () := by
  have h1 : get_content_based_recommendations envFail 1 (get_user_preferences envFail 1) none none none 10 = .ok [] := by
    simp [get_content_based_recommendations, get_user_interactions, get_user_preferences,
      envFail, List.mergeSort_nil, pure, Except.pure]
  have h2 : get_collaborative_recommendations envFail 1 none none none 10 = .ok [] := by
    simp [get_collaborative_recommendations, get_user_interactions, envFail,
      List.mergeSort_nil, pure, Except.pure]
  have h3 : record_recommendations envFail 1 (hybrid_merge_recommendations [] [] 10) = .error () := by
    simp [record_recommendations, hybrid_merge_recommendations, sortByScoreDesc,
      List.mergeSort_nil, envFail]
  exact ⟨h1, h2, h3, history_write_failure_propagates envFail 1 none none none 10 [] [] h1 h2 h3⟩

/-- Claim C3 (amended): when no interacted content has a stored feature
vector and there is no preference record, the interaction profile is absent
and the final user profile is the empty vector.  (The original claim also
asserted this for histories whose weights are all zero but whose vectors are
stored; there the code returns an unnormalized zero vector instead — see the
counterexample.) -/
theorem profile_empty_of_no_stored_vectors
    (env : Env) (u : Nat) (interactions : List UserContentInteraction)
    (h : ∀ v ∈ env.feature_vectors, v.content_id ∉ interactions.map (·.content_id)) :
    calculate_user_profile env u interactions none = [] := by
  have hsteps : ∀ (l : List UserContentInteraction) (acc : Option (List ℝ) × ℝ),
      l.foldl (profileStep []) acc = acc := by
    intro l
    induction l with
    | nil => intro acc; rfl
    | cons i rest ih =>
      intro acc
      rw [List.foldl_cons]
      have : profileStep [] acc i = acc := rfl
      rw [this, ih]
  unfold calculate_user_profile
  by_cases hi : interactions.isEmpty
  · simp [hi]
  · simp only [hi, Bool.false_and, Bool.false_eq_true, if_false]
    have hfil : env.feature_vectors.filter
        (fun v => (interactions.map (·.content_id)).contains v.content_id) = [] := by
      rw [List.filter_eq_nil_iff]
      intro v hv
      simpa [List.contains, List.elem_eq_mem] using h v hv
    rw [hfil]
    simp only [List.foldl_nil]
    rw [hsteps interactions (none, 0)]

/-- Witness for C3's amended theorem: one interaction whose content has no
stored vector. -/
theorem profile_empty_of_no_stored_vectors_witness :
    (∀ v ∈ envFail.feature_vectors,
      v.content_id ∉ ([⟨1, 10, "view", 1, 0⟩] : List UserContentInteraction).map (·.content_id))
    ∧ calculate_user_profile envFail 1 [⟨1, 10, "view", 1, 0⟩] none = [] := by
  have h : ∀ v ∈ envFail.feature_vectors,
      v.content_id ∉ ([⟨1, 10, "view", 1, 0⟩] : List UserContentInteraction).map (·.content_id) := by
    intro v hv
    simp [envFail] at hv
  exact ⟨h, profile_empty_of_no_stored_vectors envFail 1 _ h⟩

theorem profile_of_empty_guard (env : Env) (u : Nat)
    (interactions : List UserContentInteraction) (prefs : Option UserPreference)
    (h : (interactions.isEmpty && prefs.isNone) = true) :
    calculate_user_profile env u interactions prefs = [] := by
  unfold calculate_user_profile
  rw [if_pos h]

theorem mismatch_aborts_helper
    (env : Env) (u : Nat) (ct s dl : Option String) (lim : Nat) (p : Nat × List ℝ)
    (hmem : p ∈ get_content_feature_vectors env ct s dl)
    (hni : p.1 ∉ (get_user_interactions env u).map (·.content_id))
    (hpne : p.2 ≠ [])
    (hprof : calculate_user_profile env u (get_user_interactions env u) (get_user_preferences env u) ≠ [])
    (hlen : p.2.length ≠ (calculate_user_profile env u (get_user_interactions env u) (get_user_preferences env u)).length) :
    get_recommendations env u ct s dl lim = .error () := by
  set interactions := get_user_interactions env u with hI
  set prefs := get_user_preferences env u with hP
  set profile := calculate_user_profile env u interactions prefs with hPr
  set cvs := get_content_feature_vectors env ct s dl with hC
  have hg : (interactions.isEmpty && prefs.isNone) = false := by
    cases hgb : (interactions.isEmpty && prefs.isNone)
    · rfl
    · exact absurd (profile_of_empty_guard env u interactions prefs hgb) hprof
  have hcvne : cvs ≠ [] := List.ne_nil_of_mem hmem
  have hcv : cvs.isEmpty = false := by
    cases hc : cvs
    · exact absurd hc hcvne
    · rfl
  have hcont : ((interactions.map (·.content_id)).contains p.1) = false := by
    simp [List.contains, hni]
  have hsim : calculate_similarity_score profile p.2 = .error () := by
    unfold calculate_similarity_score
    have h1 : profile.isEmpty = false := by simpa [List.isEmpty_iff] using hprof
    have h2 : p.2.isEmpty = false := by simpa [List.isEmpty_iff] using hpne
    have h3 : (profile.length != p.2.length) = true := by
      simp only [bne_iff_ne, ne_eq, decide_eq_true_eq]
      exact fun hh => hlen hh.symm
    simp [h1, h2, h3]
  have hcb : get_content_based_recommendations env u prefs ct s dl lim = .error () := by
    simp only [get_content_based_recommendations, ← hI, ← hC, ← hPr, hg,
      Bool.false_eq_true, if_false, hcv, except_pure_bind]
    apply except_bind_error_of
    apply foldlM_except_error
    refine ⟨p, hmem, ?_⟩
    intro acc
    simp only [hcont, Bool.false_eq_true, if_false]
    rw [hsim, except_bind_error]
  simp only [get_recommendations, ← hP, hcb, except_bind_error]

theorem envC2_interactions : get_user_interactions envC2 1 = [⟨1, 10, "view", 1, 0⟩] := by
  simp [get_user_interactions, envC2]

theorem envC2_prefs : get_user_preferences envC2 1 = none := rfl

theorem envC2_cvs :
    get_content_feature_vectors envC2 none none none = [(10, [(1 : ℝ)]), (20, [1, 0])] := by
  simp [get_content_feature_vectors, metaMatches, envC2, aset]

theorem envC2_profile :
    calculate_user_profile envC2 1 (get_user_interactions envC2 1) (get_user_preferences envC2 1) = [1] := by
  rw [envC2_interactions, envC2_prefs]
  simp [calculate_user_profile, envC2, profileStep, alookup, aset,
    interaction_weights_get, vscale]
  norm_num

/-- Claim C2 (amended): when the (nonempty) user profile is compared against
a nonempty candidate vector of a different length, the comparison raises and
the error propagates: the whole recommendation request fails, rather than
just that candidate being excluded.  (The mismatch is still not silently
coerced; what the original claim got wrong is the recovery: the code has no
handler, so the request aborts.) -/
theorem dimension_mismatch_aborts_request
    (env : Env) (u : Nat) (ct s dl : Option String) (lim : Nat) (p : Nat × List ℝ)
    (hmem : p ∈ get_content_feature_vectors env ct s dl)
    (hni : p.1 ∉ (get_user_interactions env u).map (·.content_id))
    (hpne : p.2 ≠ [])
    (hprof : calculate_user_profile env u (get_user_interactions env u) (get_user_preferences env u) ≠ [])
    (hlen : p.2.length ≠ (calculate_user_profile env u (get_user_interactions env u) (get_user_preferences env u)).length) :
    get_recommendations env u ct s dl lim = .error () :=
  mismatch_aborts_helper env u ct s dl lim p hmem hni hpne hprof hlen

/-- Witness for C2's amended theorem on the concrete mismatch environment. -/
theorem dimension_mismatch_aborts_request_witness :
    ((20, [1, 0]) : Nat × List ℝ) ∈ get_content_feature_vectors envC2 none none none
    ∧ (20 : Nat) ∉ (get_user_interactions envC2 1).map (·.content_id)
    ∧ ([1, 0] : List ℝ) ≠ []
    ∧ calculate_user_profile envC2 1 (get_user_interactions envC2 1) (get_user_preferences envC2 1) ≠ []
    ∧ ([1, 0] : List ℝ).length ≠ (calculate_user_profile envC2 1 (get_user_interactions envC2 1) (get_user_preferences envC2 1)).length
    ∧ get_recommendations envC2 1 none none none 10 = .error () := by
  have hmem : ((20, [1, 0]) : Nat × List ℝ) ∈ get_content_feature_vectors envC2 none none none := by
    rw [envC2_cvs]; simp
  have hni : (20 : Nat) ∉ (get_user_interactions envC2 1).map (·.content_id) := by
    rw [envC2_interactions]; simp
  have h3 : ([1, 0] : List ℝ) ≠ [] := by simp
  have h4 : calculate_user_profile envC2 1 (get_user_interactions envC2 1) (get_user_preferences envC2 1) ≠ [] := by
    rw [envC2_profile]; simp
  have h5 : ([1, 0] : List ℝ).length ≠ (calculate_user_profile envC2 1 (get_user_interactions envC2 1) (get_user_preferences envC2 1)).length := by
    rw [envC2_profile]; simp
  exact ⟨hmem, hni, h3, h4, h5,
    dimension_mismatch_aborts_request envC2 1 none none none 10 (20, [1, 0]) hmem hni h3 h4 h5⟩

/-- Counterexample to claim C2 as stated: in `envC2` the profile is `[1]`
and candidate 20 stores the two-dimensional vector `[1, 0]`; the whole
request returns an error instead of completing with candidate 20 excluded. -/
theorem dimension_mismatch_counterexample :
    get_recommendations envC2 1 none none none 10 = .error () := by
  have hmem : ((20, [1, 0]) : Nat × List ℝ) ∈ get_content_feature_vectors envC2 none none none := by
    rw [envC2_cvs]; simp
  have hni : (20 : Nat) ∉ (get_user_interactions envC2 1).map (·.content_id) := by
    rw [envC2_interactions]; simp
  have h4 : calculate_user_profile envC2 1 (get_user_interactions envC2 1) (get_user_preferences envC2 1) ≠ [] := by
    rw [envC2_profile]; simp
  have h5 : ([1, 0] : List ℝ).length ≠ (calculate_user_profile envC2 1 (get_user_interactions envC2 1) (get_user_preferences envC2 1)).length := by
    rw [envC2_profile]; simp
  exact mismatch_aborts_helper envC2 1 none none none 10 (20, [1, 0]) hmem hni (by simp) h4 h5

/-- Counterexample to claim C3 as stated: user 1's single interaction has
engagement score `0` (so every per-interaction weight, and the total weight,
is zero) and content 10's vector `[1]` is stored; the final profile is the
zero vector `[0]`, not the empty vector. -/
theorem profile_zero_weight_counterexample :
    calculate_user_profile envC3 1 (get_user_interactions envC3 1) none = [0]
    ∧ ([0] : List ℝ) ≠ [] := by
  refine ⟨?_, by simp⟩
  have hints : get_user_interactions envC3 1 = [⟨1, 10, "view", 0, 0⟩] := by
    simp [get_user_interactions, envC3]
  rw [hints]
  simp [calculate_user_profile, envC3, aset, profileStep, alookup, interaction_weights_get,
    vscale]

/-- Claim C4 (amended): the Collaborative Scorer ignores the
content_type/subject/difficulty filter parameters entirely — its output is
the same whatever filters are passed, and no candidate-level metadata
filtering happens even when the candidate's feature-vector metadata is
available.  The parameters are accepted and dropped. -/
theorem collaborative_ignores_filters (env : Env) (u : Nat)
    (ct s dl ct' s' dl' : Option String) (limit : Nat) :
    get_collaborative_recommendations env u ct s dl limit =
      get_collaborative_recommendations env u ct' s' dl' limit := rfl

theorem envC4_interactions : get_user_interactions envC4 1 = [⟨1, 10, "view", 1, 0⟩] := by
  simp [get_user_interactions, envC4, List.filter]

theorem dedup_ten : ([10] : List Nat).dedup = [10] := by
  rw [List.dedup_cons_of_not_mem (by simp), List.dedup_nil]

theorem anchor_C4 : anchorSorted [⟨1, 10, "view", 1, 0⟩] = [10] := by
  simp [anchorSorted, dedup_ten]

theorem vector_C4_target :
    create_interaction_vector [⟨1, 10, "view", 1, 0⟩] [10] = [1] := by
  simp [create_interaction_vector, interactionVectorStep, interaction_weights_get]
  norm_num

theorem vector_C4_other :
    create_interaction_vector [⟨2, 10, "view", 1, 1⟩] [10] = [1] := by
  simp [create_interaction_vector, interactionVectorStep, interaction_weights_get]
  norm_num

theorem sim_one_one : calculate_similarity_score [(1 : ℝ)] [1] = .ok 1 := by
  have hd : dotProduct [(1 : ℝ)] [1] = 1 := by norm_num [dotProduct]
  unfold calculate_similarity_score
  simp only [List.isEmpty_cons, Bool.or_self, Bool.false_eq_true, if_false,
    List.length_singleton, bne_self_eq_false]
  unfold cosineDistance norm2
  rw [hd, Real.sqrt_one]
  norm_num

theorem find_similar_C4 :
    find_similar_users envC4 1 [⟨1, 10, "view", 1, 0⟩] = .ok [(2, 1)] := by
  have hgrp : groupByUser [⟨2, 10, "view", 1, 1⟩] = [(2, [⟨2, 10, "view", 1, 1⟩])] := by
    simp [groupByUser, alookup]
  simp only [find_similar_users, anchor_C4, List.isEmpty_cons, Bool.false_eq_true,
    if_false, except_pure_bind]
  have hothers : envC4.interactions.filter
      (fun i => ([10] : List Nat).contains i.content_id && i.user_id != 1)
      = [⟨2, 10, "view", 1, 1⟩] := by
    simp [envC4, List.filter]
  rw [hothers, hgrp]
  rw [List.foldlM_cons, vector_C4_other, vector_C4_target, sim_one_one, except_bind_ok]
  rw [if_pos (by norm_num : (1 : ℝ) > 0)]
  simp [List.mergeSort_singleton, except_pure_eq, except_bind_ok]

/-- Counterexample to claim C4 as stated: candidate 20's feature-vector
metadata is available and says `content_type = "video"`, yet the
collaborative scorer run with filter `content_type = "book"` still returns
candidate 20 — no candidate-level filter is applied. -/
theorem collaborative_filter_counterexample :
    envC4.feature_vectors.map (fun v => (v.content_id, alookup v.metadata "content_type"))
      = [(20, some (MetaVal.str "video"))]
    ∧ get_collaborative_recommendations envC4 1 (some "book") none none 10
      = .ok [⟨20, 1, RecommendationType.collaborative, collabMeta 1⟩] := by
  constructor
  · simp [envC4, alookup]
  · simp only [get_collaborative_recommendations, envC4_interactions, List.isEmpty_cons,
      Bool.false_eq_true, if_false, except_pure_bind, find_similar_C4, except_bind_ok]
    have hrecs : get_recommendations_from_similar_users envC4 1 [(2, 1)]
        (some "book") none none
        = [⟨20, 1, RecommendationType.collaborative, collabMeta 1⟩] := by
      simp only [get_recommendations_from_similar_users, envC4_interactions]
      have hsints : envC4.interactions.filter
          (fun i => (([(2, (1 : ℝ))].map (·.1)).contains i.user_id))
          = [⟨2, 10, "view", 1, 1⟩, ⟨2, 20, "view", 1, 2⟩] := by
        simp [envC4, List.filter]
      rw [hsints]
      simp only [List.foldl_cons, List.foldl_nil]
      have hstep1 : collabScoreStep [(2, (1 : ℝ))]
          (([⟨1, 10, "view", 1, 0⟩] : List UserContentInteraction).map (·.content_id)) []
          ⟨2, 10, "view", 1, 1⟩ = [] := by
        simp [collabScoreStep]
      have hstep2 : collabScoreStep [(2, (1 : ℝ))]
          (([⟨1, 10, "view", 1, 0⟩] : List UserContentInteraction).map (·.content_id)) []
          ⟨2, 20, "view", 1, 2⟩ = [(20, 1)] := by
        simp [collabScoreStep, alookup, aset, interaction_weights_get]
        norm_num
      rw [hstep1, hstep2]
      simp [collabMeta]
    rw [hrecs]
    simp [sortByScoreDesc, List.mergeSort_singleton, except_pure_eq]

theorem sortByScoreDesc_sorted (l : List RecommendationResponse) :
    List.Pairwise (fun a b => b.score ≤ a.score) (sortByScoreDesc l) := by
  unfold sortByScoreDesc
  have htrans : ∀ (a b c : RecommendationResponse),
      (decide (b.score ≤ a.score)) = true → (decide (c.score ≤ b.score)) = true →
      (decide (c.score ≤ a.score)) = true := by
    intro a b c hab hbc
    simp only [decide_eq_true_eq] at *
    exact le_trans hbc hab
  have htotal : ∀ (a b : RecommendationResponse),
      ((decide (b.score ≤ a.score)) || (decide (a.score ≤ b.score))) = true := by
    intro a b
    simp only [Bool.or_eq_true, decide_eq_true_eq]
    exact le_total _ _
  have hs := List.sorted_mergeSort htrans htotal l
  exact hs.imp (fun h => by simpa using h)

theorem mem_sortByScoreDesc {r : RecommendationResponse} {l : List RecommendationResponse} :
    r ∈ sortByScoreDesc l ↔ r ∈ l := by
  unfold sortByScoreDesc
  exact List.mem_mergeSort

theorem take_length_le {α : Type} (l : List α) (n : Nat) : (l.take n).length ≤ n := by
  rw [List.length_take]
  exact Nat.min_le_left _ _

/-- Claim C8: for every pair of input result sets and every requested limit,
the Hybrid Merger's output has length at most the limit and is sorted in
non-increasing order of score. -/
theorem hybrid_merge_length_and_sorted
    (content_based_recs collaborative_recs : List RecommendationResponse) (limit : Nat) :
    (hybrid_merge_recommendations content_based_recs collaborative_recs limit).length ≤ limit
    ∧ List.Pairwise (fun a b => b.score ≤ a.score)
        (hybrid_merge_recommendations content_based_recs collaborative_recs limit) := by
  unfold hybrid_merge_recommendations
  constructor
  · exact take_length_le _ _
  · exact List.Pairwise.sublist (List.take_sublist _ _) (sortByScoreDesc_sorted _)

/-- Claim C7: content-based recommendations never contain a content id from
the user's own interaction history. -/
theorem content_based_excludes_interacted
    (env : Env) (u : Nat) (user_prefs : Option UserPreference)
    (ct s dl : Option String) (lim : Nat) (l : List RecommendationResponse)
    (h : get_content_based_recommendations env u user_prefs ct s dl lim = .ok l) :
    ∀ r ∈ l, r.content_id ∉ (get_user_interactions env u).map (·.content_id) := by
  simp only [get_content_based_recommendations, except_pure_bind] at h
  cases hg1 : ((get_user_interactions env u).isEmpty && user_prefs.isNone) with
  | true =>
    rw [hg1] at h
    simp only [if_pos rfl, except_pure_eq] at h
    cases h
    intro r hr
    simp at hr
  | false =>
    rw [hg1] at h
    simp only [Bool.false_eq_true, if_false] at h
    cases hg2 : (get_content_feature_vectors env ct s dl).isEmpty with
    | true =>
      rw [hg2] at h
      simp only [if_pos rfl, except_pure_eq] at h
      cases h
      intro r hr
      simp at hr
    | false =>
      rw [hg2] at h
      simp only [Bool.false_eq_true, if_false] at h
      obtain ⟨recs, hfold, hpure⟩ := except_bind_ok_inv h
      have hl : l = (sortByScoreDesc recs).take lim := by
        rw [except_pure_eq] at hpure
        cases hpure
        rfl
      have hrecs : ∀ r ∈ recs, r.content_id ∉ (get_user_interactions env u).map (·.content_id) := by
        intro r hr
        refine foldlM_except_ok_forall
          (fun acc => ∀ r' ∈ acc, r'.content_id ∉ (get_user_interactions env u).map (·.content_id))
          ?_ (by simp) hfold r hr
        intro acc a b' hav hacc hstep
        by_cases hcont : (((get_user_interactions env u).map (·.content_id)).contains a.1) = true
        · rw [if_pos hcont, except_pure_eq] at hstep
          cases hstep
          exact hacc
        · rw [if_neg hcont, ] at hstep
          obtain ⟨sim, hsim, hif⟩ := except_bind_ok_inv hstep
          have hnotmem : a.1 ∉ (get_user_interactions env u).map (·.content_id) := by
            simpa [List.contains] using hcont
          by_cases hpos : sim > 0
          · rw [if_pos hpos, except_pure_eq] at hif
            cases hif
            intro r' hr'
            rcases List.mem_append.1 hr' with h' | h'
            · exact hacc r' h'
            · rcases List.mem_singleton.1 h' with rfl
              exact hnotmem
          · rw [if_neg hpos, except_pure_eq] at hif
            cases hif
            exact hacc
      intro r hr
      rw [hl] at hr
      exact hrecs r (mem_sortByScoreDesc.1 (List.mem_of_mem_take hr))

/-- Witness for C7 on the empty environment. -/
theorem content_based_excludes_interacted_witness :
    get_content_based_recommendations envFail 1 none none none none 10 = .ok []
    ∧ ∀ r ∈ ([] : List RecommendationResponse),
        r.content_id ∉ (get_user_interactions envFail 1).map (·.content_id) := by
  have h : get_content_based_recommendations envFail 1 none none none none 10 = .ok [] := by
    simp [get_content_based_recommendations, get_user_interactions, envFail,
      List.mergeSort_nil, except_pure_eq]
  exact ⟨h, content_based_excludes_interacted envFail 1 none none none none 10 [] h⟩

/-- Claim C10: the interaction-weight lookup is total with default `1.0`
(the weight of `view`) for unknown interaction-type strings, and in each of
the three places the engine uses it — the profile-building accumulation, the
interaction-vector construction, and the collaborative candidate
aggregation — an interaction with an unknown type behaves exactly like a
`view` interaction, so no operation fails on an unknown type. -/
theorem unknown_interaction_type_defaults_to_view
    (t : String)
    (h : ¬ (t = "view" ∨ t = "complete" ∨ t = "like" ∨ t = "bookmark")) :
    interaction_weights_get t = 1
    ∧ interaction_weights_get t = interaction_weights_get "view"
    ∧ (∀ (cvs : List (Nat × List ℝ)) (acc : Option (List ℝ) × ℝ) (i : UserContentInteraction),
        i.interaction_type = t → profileStep cvs acc i = profileStep cvs acc (retypeView i))
    ∧ (∀ (ids : List Nat) (vec : List ℝ) (i : UserContentInteraction),
        i.interaction_type = t →
        interactionVectorStep ids vec i = interactionVectorStep ids vec (retypeView i))
    ∧ (∀ (su : List (Nat × ℝ)) (ucids : List Nat) (cs : List (Nat × ℝ)) (i : UserContentInteraction),
        i.interaction_type = t →
        collabScoreStep su ucids cs i = collabScoreStep su ucids cs (retypeView i)) := by
  push_neg at h
  obtain ⟨h1, h2, h3, h4⟩ := h
  have hw : interaction_weights_get t = 1 := by
    simp only [interaction_weights_get, h1, h2, h3, h4, if_false]
    norm_num
  have hv : interaction_weights_get "view" = 1 := by
    simp only [interaction_weights_get, if_pos rfl]
    norm_num
  refine ⟨hw, by rw [hw, hv], ?_, ?_, ?_⟩
  · intro cvs acc i hit
    simp [profileStep, retypeView, hit, hw, hv]
  · intro ids vec i hit
    simp [interactionVectorStep, retypeView, hit, hw, hv]
  · intro su ucids cs i hit
    simp [collabScoreStep, retypeView, hit, hw, hv]

/-- Witness for C10 at the unknown interaction type `"quiz"`. -/
theorem unknown_interaction_type_defaults_to_view_witness :
    ¬ ("quiz" = "view" ∨ "quiz" = "complete" ∨ "quiz" = "like" ∨ "quiz" = "bookmark")
    ∧ interaction_weights_get "quiz" = 1 := by
  have h : ¬ ("quiz" = "view" ∨ "quiz" = "complete" ∨ "quiz" = "like" ∨ "quiz" = "bookmark") := by
    simp
  exact ⟨h, (unknown_interaction_type_defaults_to_view "quiz" h).1⟩

theorem hybrid_m1_some (cb : List RecommendationResponse) :
    ∀ (m : List (Nat × MergedEntry)) (cid : Nat) (e : MergedEntry),
      alookup (cb.foldl hybridStepCB m) cid = some e →
      (lastLookup (cb.map (fun r => (r.content_id, r.score))) cid = some e.content_based_score
        ∧ e.collaborative_score = 0)
      ∨ (lastLookup (cb.map (fun r => (r.content_id, r.score))) cid = none
        ∧ alookup m cid = some e) := by
  induction cb with
  | nil => intro m cid e h; right; exact ⟨rfl, h⟩
  | cons r rest ih =>
    intro m cid e h
    rw [List.foldl_cons] at h
    rcases ih _ cid e h with ⟨hl, h0⟩ | ⟨hnone, hm⟩
    · left
      refine ⟨?_, h0⟩
      rw [List.map_cons, lastLookup_cons, hl]
    · by_cases hc : r.content_id = cid
      · subst hc
        rw [hybridStepCB, alookup_aset_self] at hm
        injection hm with hme
        subst hme
        left
        refine ⟨?_, rfl⟩
        rw [List.map_cons, lastLookup_cons, hnone]
        simp
      · rw [hybridStepCB, alookup_aset_ne _ _ (fun hh => hc hh.symm)] at hm
        right
        refine ⟨?_, hm⟩
        rw [List.map_cons, lastLookup_cons, hnone]
        simp [hc]

theorem hybrid_m1_none (cb : List RecommendationResponse) :
    ∀ (m : List (Nat × MergedEntry)) (cid : Nat),
      alookup (cb.foldl hybridStepCB m) cid = none →
      lastLookup (cb.map (fun r => (r.content_id, r.score))) cid = none
        ∧ alookup m cid = none := by
  induction cb with
  | nil => intro m cid h; exact ⟨rfl, h⟩
  | cons r rest ih =>
    intro m cid h
    rw [List.foldl_cons] at h
    obtain ⟨hrest, hm⟩ := ih _ cid h
    have hc : r.content_id ≠ cid := by
      intro hh
      subst hh
      rw [hybridStepCB, alookup_aset_self] at hm
      exact Option.noConfusion hm
    rw [hybridStepCB, alookup_aset_ne _ _ (fun hh => hc hh.symm)] at hm
    refine ⟨?_, hm⟩
    rw [List.map_cons, lastLookup_cons, hrest]
    simp [hc]

theorem hybridStepCollab_lookup_ne (m : List (Nat × MergedEntry))
    (r : RecommendationResponse) {cid : Nat} (hne : cid ≠ r.content_id) :
    alookup (hybridStepCollab m r) cid = alookup m cid := by
  rw [hybridStepCollab]
  cases alookup m r.content_id
  · rw [alookup_aset_ne _ _ hne]
  · rw [alookup_aset_ne _ _ hne]

theorem hybrid_m2_some (collab : List RecommendationResponse) :
    ∀ (m : List (Nat × MergedEntry)) (cid : Nat) (e : MergedEntry),
      alookup (collab.foldl hybridStepCollab m) cid = some e →
      (∃ e0, alookup m cid = some e0
          ∧ e.content_based_score = e0.content_based_score
          ∧ e.collaborative_score =
              (lastLookup (collab.map (fun r => (r.content_id, r.score))) cid).getD
                e0.collaborative_score)
      ∨ (alookup m cid = none ∧ e.content_based_score = 0
          ∧ lastLookup (collab.map (fun r => (r.content_id, r.score))) cid
              = some e.collaborative_score) := by
  induction collab with
  | nil =>
    intro m cid e h
    left
    exact ⟨e, h, rfl, rfl⟩
  | cons r rest ih =>
    intro m cid e h
    rw [List.foldl_cons] at h
    rcases ih _ cid e h with ⟨e1, hm', hcb, hcl⟩ | ⟨hmnone, hcb0, hl⟩
    · by_cases hc : r.content_id = cid
      · subst hc
        cases hm0 : alookup m r.content_id with
        | some e0 =>
          rw [hybridStepCollab, hm0, alookup_aset_self] at hm'
          injection hm' with he1
          subst he1
          left
          refine ⟨e0, rfl, by simpa using hcb, ?_⟩
          rw [List.map_cons, lastLookup_cons]
          cases hrest : lastLookup (rest.map (fun r => (r.content_id, r.score))) r.content_id with
          | some s => rw [hrest] at hcl; simpa using hcl
          | none =>
            rw [hrest] at hcl
            simpa using hcl
        | none =>
          rw [hybridStepCollab, hm0, alookup_aset_self] at hm'
          injection hm' with he1
          subst he1
          right
          refine ⟨rfl, by simpa using hcb, ?_⟩
          rw [List.map_cons, lastLookup_cons]
          cases hrest : lastLookup (rest.map (fun r => (r.content_id, r.score))) r.content_id with
          | some s =>
            rw [hrest] at hcl
            simp only [Option.getD_some] at hcl
            simp [hcl]
          | none =>
            rw [hrest] at hcl
            simp only [Option.getD_none] at hcl
            simp [hcl]
      · have hne : cid ≠ r.content_id := fun hh => hc hh.symm
        rw [hybridStepCollab_lookup_ne m r hne] at hm'
        left
        refine ⟨e1, hm', hcb, ?_⟩
        rw [List.map_cons, lastLookup_cons]
        cases hrest : lastLookup (rest.map (fun r => (r.content_id, r.score))) cid with
        | some s => rw [hrest] at hcl; simpa using hcl
        | none =>
          rw [hrest] at hcl
          simp only [Option.getD_none] at hcl
          simp [hc, hcl]
    · have hcne : cid ≠ r.content_id := by
        intro hh
        subst hh
        rw [hybridStepCollab] at hmnone
        cases hm0 : alookup m r.content_id with
        | some e0 => rw [hm0, alookup_aset_self] at hmnone; exact Option.noConfusion hmnone
        | none => rw [hm0, alookup_aset_self] at hmnone; exact Option.noConfusion hmnone
      rw [hybridStepCollab_lookup_ne m r hcne] at hmnone
      right
      refine ⟨hmnone, hcb0, ?_⟩
      rw [List.map_cons, lastLookup_cons, hl]

theorem keysNodup_foldl_cb (cb : List RecommendationResponse) :
    ∀ m : List (Nat × MergedEntry), keysNodup m → keysNodup (cb.foldl hybridStepCB m) := by
  induction cb with
  | nil => intro m h; exact h
  | cons r rest ih =>
    intro m h
    rw [List.foldl_cons]
    exact ih _ (keysNodup_aset h _ _)

theorem keysNodup_foldl_collab (collab : List RecommendationResponse) :
    ∀ m : List (Nat × MergedEntry), keysNodup m → keysNodup (collab.foldl hybridStepCollab m) := by
  induction collab with
  | nil => intro m h; exact h
  | cons r rest ih =>
    intro m h
    rw [List.foldl_cons]
    refine ih _ ?_
    rw [hybridStepCollab]
    cases alookup m r.content_id
    · exact keysNodup_aset h _ _
    · exact keysNodup_aset h _ _

/-- Claim C6: every entry produced by the Hybrid Merger scores exactly
`0.6 * content_based_score + 0.4 * collaborative_score`, where the component
score of a content id is the one its (last) occurrence in the corresponding
input list carries, and `0` when the id is absent from that list. -/
theorem hybrid_score_formula
    (content_based_recs collaborative_recs : List RecommendationResponse) (limit : Nat) :
    (hybrid_merge_recommendations content_based_recs collaborative_recs limit).Forall
      (fun r => r.score = 0.6 * lastScore content_based_recs r.content_id
        + 0.4 * lastScore collaborative_recs r.content_id) := by
  rw [List.forall_iff_forall_mem]
  intro r hr
  simp only [hybrid_merge_recommendations] at hr
  have hr2 := mem_sortByScoreDesc.1 (List.mem_of_mem_take hr)
  obtain ⟨p, hp, hpr⟩ := List.mem_map.1 hr2
  have hnd : keysNodup (collaborative_recs.foldl hybridStepCollab
      (content_based_recs.foldl hybridStepCB [])) :=
    keysNodup_foldl_collab _ _ (keysNodup_foldl_cb _ _ (by simp [keysNodup]))
  have hlook : alookup (collaborative_recs.foldl hybridStepCollab
      (content_based_recs.foldl hybridStepCB [])) p.1 = some p.2 :=
    alookup_of_mem_nodup hnd (by simpa using hp)
  have hscore : r.score = p.2.content_based_score * 0.6 + p.2.collaborative_score * 0.4 := by
    rw [← hpr]
  have hcid : r.content_id = p.1 := by rw [← hpr]
  rcases hybrid_m2_some collaborative_recs _ p.1 p.2 hlook with
    ⟨e0, hm1, hcb, hcl⟩ | ⟨hm1none, hcb0, hl⟩
  · rcases hybrid_m1_some content_based_recs [] p.1 e0 hm1 with ⟨hcbl, h0⟩ | ⟨_, habs⟩
    · rw [hscore, hcid]
      unfold lastScore
      rw [hcbl, hcb, hcl, h0]
      simp only [Option.getD_some]
      cases lastLookup (collaborative_recs.map (fun r => (r.content_id, r.score))) p.1 with
      | none => simp only [Option.getD_none]; ring
      | some s => simp only [Option.getD_some]; ring
    · rw [alookup_nil] at habs
      exact Option.noConfusion habs
  · obtain ⟨hcbnone, -⟩ := hybrid_m1_none content_based_recs [] p.1 hm1none
    rw [hscore, hcid]
    unfold lastScore
    rw [hcbnone, hcb0, hl]
    simp only [Option.getD_none, Option.getD_some]
    ring

theorem cbMeta_src (sim : ℝ) :
    lastLookup (cbMeta sim) "recommendation_source" = some (MetaVal.str "content_based") := rfl

theorem collabMeta_src (sc : ℝ) :
    lastLookup (collabMeta sc) "recommendation_source" = some (MetaVal.str "collaborative") := rfl

theorem cb_output_shape
    (env : Env) (u : Nat) (user_prefs : Option UserPreference)
    (ct s dl : Option String) (lim : Nat) (l : List RecommendationResponse)
    (h : get_content_based_recommendations env u user_prefs ct s dl lim = .ok l) :
    ∀ r ∈ l, ∃ sim, r.metadata = cbMeta sim := by
  simp only [get_content_based_recommendations, except_pure_bind] at h
  cases hg1 : ((get_user_interactions env u).isEmpty && user_prefs.isNone) with
  | true =>
    rw [hg1] at h
    simp only [if_pos rfl, except_pure_eq] at h
    cases h
    intro r hr
    simp at hr
  | false =>
    rw [hg1] at h
    simp only [Bool.false_eq_true, if_false] at h
    cases hg2 : (get_content_feature_vectors env ct s dl).isEmpty with
    | true =>
      rw [hg2] at h
      simp only [if_pos rfl, except_pure_eq] at h
      cases h
      intro r hr
      simp at hr
    | false =>
      rw [hg2] at h
      simp only [Bool.false_eq_true, if_false] at h
      obtain ⟨recs, hfold, hpure⟩ := except_bind_ok_inv h
      have hl : l = (sortByScoreDesc recs).take lim := by
        rw [except_pure_eq] at hpure
        cases hpure
        rfl
      have hrecs : ∀ r ∈ recs, ∃ sim, r.metadata = cbMeta sim := by
        intro r hr
        refine foldlM_except_ok_forall
          (fun acc => ∀ r' ∈ acc, ∃ sim, r'.metadata = cbMeta sim)
          ?_ (by simp) hfold r hr
        intro acc a b' hav hacc hstep
        by_cases hcont : (((get_user_interactions env u).map (·.content_id)).contains a.1) = true
        · rw [if_pos hcont, except_pure_eq] at hstep
          cases hstep
          exact hacc
        · rw [if_neg hcont] at hstep
          obtain ⟨sim, hsim, hif⟩ := except_bind_ok_inv hstep
          by_cases hpos : sim > 0
          · rw [if_pos hpos, except_pure_eq] at hif
            cases hif
            intro r' hr'
            rcases List.mem_append.1 hr' with h' | h'
            · exact hacc r' h'
            · rcases List.mem_singleton.1 h' with rfl
              exact ⟨sim, rfl⟩
          · rw [if_neg hpos, except_pure_eq] at hif
            cases hif
            exact hacc
      intro r hr
      rw [hl] at hr
      exact hrecs r (mem_sortByScoreDesc.1 (List.mem_of_mem_take hr))

theorem collab_output_shape
    (env : Env) (u : Nat) (ct s dl : Option String) (lim : Nat)
    (l : List RecommendationResponse)
    (h : get_collaborative_recommendations env u ct s dl lim = .ok l) :
    ∀ r ∈ l, ∃ sc, r.metadata = collabMeta sc := by
  simp only [get_collaborative_recommendations, except_pure_bind] at h
  cases hg1 : (get_user_interactions env u).isEmpty with
  | true =>
    rw [hg1] at h
    simp only [if_pos rfl, except_pure_eq] at h
    cases h
    intro r hr
    simp at hr
  | false =>
    rw [hg1] at h
    simp only [Bool.false_eq_true, if_false] at h
    obtain ⟨su, hsu, h2⟩ := except_bind_ok_inv h
    have hforall : ∀ r ∈ get_recommendations_from_similar_users env u su ct s dl,
        ∃ sc, r.metadata = collabMeta sc := by
      intro r hr
      simp only [get_recommendations_from_similar_users] at hr
      obtain ⟨p, hp, hpr⟩ := List.mem_map.1 hr
      exact ⟨p.2, by rw [← hpr]⟩
    cases hsue : su.isEmpty with
    | true =>
      rw [hsue] at h2
      simp only [if_pos rfl, except_pure_eq] at h2
      cases h2
      intro r hr
      simp at hr
    | false =>
      rw [hsue] at h2
      simp only [Bool.false_eq_true, if_false, except_pure_eq] at h2
      cases h2
      intro r hr
      exact hforall r (mem_sortByScoreDesc.1 (List.mem_of_mem_take hr))

theorem m1_src_inv (cb : List RecommendationResponse)
    (hcb : ∀ r ∈ cb, lastLookup r.metadata "recommendation_source"
      = some (MetaVal.str "content_based")) :
    ∀ (m : List (Nat × MergedEntry)),
      (∀ p ∈ m, lastLookup p.2.metadata "recommendation_source" = some (MetaVal.str "content_based")
        ∨ lastLookup p.2.metadata "recommendation_source" = some (MetaVal.str "collaborative")) →
      ∀ p ∈ cb.foldl hybridStepCB m,
        lastLookup p.2.metadata "recommendation_source" = some (MetaVal.str "content_based")
        ∨ lastLookup p.2.metadata "recommendation_source" = some (MetaVal.str "collaborative") := by
  induction cb with
  | nil => intro m hm p hp; exact hm p hp
  | cons r rest ih =>
    intro m hm p hp
    rw [List.foldl_cons] at hp
    refine ih (fun r' hr' => hcb r' (List.mem_cons_of_mem _ hr')) _ ?_ p hp
    intro q hq
    rcases mem_aset hq with hq' | hq'
    · exact hm q hq'
    · subst hq'
      left
      exact hcb r (List.mem_cons_self r rest)

theorem m2_src_inv (collab : List RecommendationResponse)
    (hcl : ∀ r ∈ collab, lastLookup r.metadata "recommendation_source"
      = some (MetaVal.str "collaborative")) :
    ∀ (m : List (Nat × MergedEntry)),
      (∀ p ∈ m, lastLookup p.2.metadata "recommendation_source" = some (MetaVal.str "content_based")
        ∨ lastLookup p.2.metadata "recommendation_source" = some (MetaVal.str "collaborative")) →
      ∀ p ∈ collab.foldl hybridStepCollab m,
        lastLookup p.2.metadata "recommendation_source" = some (MetaVal.str "content_based")
        ∨ lastLookup p.2.metadata "recommendation_source" = some (MetaVal.str "collaborative") := by
  induction collab with
  | nil => intro m hm p hp; exact hm p hp
  | cons r rest ih =>
    intro m hm p hp
    rw [List.foldl_cons] at hp
    refine ih (fun r' hr' => hcl r' (List.mem_cons_of_mem _ hr')) _ ?_ p hp
    intro q hq
    have hrsrc : lastLookup r.metadata "recommendation_source"
        = some (MetaVal.str "collaborative") := hcl r (List.mem_cons_self r rest)
    rw [hybridStepCollab] at hq
    cases he : alookup m r.content_id with
    | some e =>
      rw [he] at hq
      rcases mem_aset hq with hq' | hq'
      · exact hm q hq'
      · subst hq'
        right
        simp only []
        rw [lastLookup_aupdate, hrsrc]
    | none =>
      rw [he] at hq
      rcases mem_aset hq with hq' | hq'
      · exact hm q hq'
      · subst hq'
        right
        exact hrsrc

/-- Claim C9: every recommendation returned by `get_recommendations` is
tagged `hybrid` in its `recommendation_type` field, but its metadata's
`recommendation_source` entry is the component scorer's value
(`content_based` or `collaborative`), never `hybrid`: the component metadata
is spread after the merger's own keys and overwrites them. -/
theorem hybrid_metadata_source_overwritten
    (env : Env) (u : Nat) (ct s dl : Option String) (lim : Nat)
    (l : List RecommendationResponse)
    (h : get_recommendations env u ct s dl lim = .ok l) :
    ∀ r ∈ l, r.recommendation_type = RecommendationType.hybrid
      ∧ alookup r.metadata "recommendation_source" ≠ some (MetaVal.str "hybrid")
      ∧ (alookup r.metadata "recommendation_source" = some (MetaVal.str "content_based")
        ∨ alookup r.metadata "recommendation_source" = some (MetaVal.str "collaborative")) := by
  simp only [get_recommendations] at h
  obtain ⟨cbl, hcb, h2⟩ := except_bind_ok_inv h
  obtain ⟨cll, hcl, h3⟩ := except_bind_ok_inv h2
  obtain ⟨u0, hrec, h4⟩ := except_bind_ok_inv h3
  rw [except_pure_eq] at h4
  injection h4 with h4
  subst h4
  have hcbinv : ∀ r ∈ cbl, lastLookup r.metadata "recommendation_source"
      = some (MetaVal.str "content_based") := by
    intro r hr
    obtain ⟨sim, hmd⟩ := cb_output_shape env u (get_user_preferences env u) ct s dl lim cbl hcb r hr
    rw [hmd, cbMeta_src]
  have hclinv : ∀ r ∈ cll, lastLookup r.metadata "recommendation_source"
      = some (MetaVal.str "collaborative") := by
    intro r hr
    obtain ⟨sc, hmd⟩ := collab_output_shape env u ct s dl lim cll hcl r hr
    rw [hmd, collabMeta_src]
  intro r hr
  simp only [hybrid_merge_recommendations] at hr
  have hr2 := mem_sortByScoreDesc.1 (List.mem_of_mem_take hr)
  obtain ⟨p, hp, hpr⟩ := List.mem_map.1 hr2
  have hpsrc : lastLookup p.2.metadata "recommendation_source" = some (MetaVal.str "content_based")
      ∨ lastLookup p.2.metadata "recommendation_source" = some (MetaVal.str "collaborative") :=
    m2_src_inv cll hclinv _ (m1_src_inv cbl hcbinv [] (by simp)) p hp
  have htype : r.recommendation_type = RecommendationType.hybrid := by rw [← hpr]
  have hmd : r.metadata = hybridMeta p.2 := by rw [← hpr]
  have hlook : ∀ v : MetaVal,
      lastLookup p.2.metadata "recommendation_source" = some v →
      alookup (hybridMeta p.2) "recommendation_source" = some v := by
    intro v hv
    unfold hybridMeta
    rw [alookup_aupdate, hv]
  refine ⟨htype, ?_, ?_⟩
  · rcases hpsrc with hs | hs <;> rw [hmd, hlook _ hs] <;> simp
  · rcases hpsrc with hs | hs
    · left
      rw [hmd, hlook _ hs]
    · right
      rw [hmd, hlook _ hs]

/-- Witness for C9 on the empty environment. -/
theorem hybrid_metadata_source_overwritten_witness :
    get_recommendations envOkEmpty 1 none none none 10 = .ok []
    ∧ ∀ r ∈ ([] : List RecommendationResponse),
        r.recommendation_type = RecommendationType.hybrid
        ∧ alookup r.metadata "recommendation_source" ≠ some (MetaVal.str "hybrid")
        ∧ (alookup r.metadata "recommendation_source" = some (MetaVal.str "content_based")
          ∨ alookup r.metadata "recommendation_source" = some (MetaVal.str "collaborative")) := by
  have h : get_recommendations envOkEmpty 1 none none none 10 = .ok [] := by
    simp [get_recommendations, get_content_based_recommendations,
      get_collaborative_recommendations, get_user_interactions, get_user_preferences,
      record_recommendations, hybrid_merge_recommendations, sortByScoreDesc,
      envOkEmpty, List.mergeSort_nil, except_pure_eq, except_pure_bind, except_bind_ok]
  exact ⟨h, hybrid_metadata_source_overwritten envOkEmpty 1 none none none 10 [] h⟩

end RecEngine
